import Mathlib

set_option linter.unusedVariables false

/-!
Verification development for the `python_experiments` utility library
(`src/python_experiments/utils.py`): a shallow embedding in Lean 4 of
`cancel_and_wait`, `merge_dicts`, `ContextLogger`, `retry`,
`shell_command` / `run_shell`, and the elapsed-time formatter, together
with theorems about their specified behaviour.
-/

/-! ## Model of `cancel_and_wait` (utils.py lines 26-57)

The asyncio runtime is modelled by three observations the code branches on:
the terminal outcome of the awaited target task, whether the runtime is
Python >= 3.11 (`sys.version_info` check), whether `asyncio.current_task()`
returns a task, and the caller task's pending-cancellation count
(`current_task.cancelling()`).
-/

/-- How the awaited target task terminates: raising `asyncio.CancelledError`,
returning a value, or raising some other exception (carried by name). -/
inductive TaskOutcome where
  | raisesCancelled : TaskOutcome
  | returnsValue : TaskOutcome
  | raisesOther : String → TaskOutcome
deriving DecidableEq, Repr

/-- The runtime context observed by `cancel_and_wait` while handling
`CancelledError`: Python version flag, availability of the current task
object, and the caller task's unconsumed-cancellation count. -/
structure CallerCtx where
  py311 : Bool
  hasCurrentTask : Bool
  cancelling : Nat
deriving DecidableEq, Repr

/-- Possible results of a `cancel_and_wait` call. -/
inductive CAWResult where
  | returnsNormally : CAWResult
  | raisesCancelled : CAWResult
  | raisesRuntimeError : String → CAWResult
  | raisesAssertionError : String → CAWResult
  | raisesOther : String → CAWResult
deriving DecidableEq, Repr

/-- Shallow embedding of `cancel_and_wait(task, msg)`.  `task.cancel(msg)` is
issued, then the task is awaited; `taskRepr` stands for `f"{task}"`.
Mirrors the source line by line: on `CancelledError` from the await, a
pre-3.11 runtime returns quietly; a missing current task is an
`AssertionError`; a positive `cancelling()` count re-raises; otherwise the
cancellation is suppressed.  If the await instead finishes without an
exception, a `RuntimeError` naming the task is raised; any other exception
from the await propagates unchanged. -/
def cancel_and_wait (taskRepr : String) (msg : Option String) (outcome : TaskOutcome)
    (ctx : CallerCtx) : CAWResult :=
  match outcome with
  | .raisesCancelled =>
    if !ctx.py311 then
      .returnsNormally
    else if !ctx.hasCurrentTask then
      .raisesAssertionError "Fatal bug, cannot acquire asyncio Task object of current coroutine."
    else if 0 < ctx.cancelling then
      .raisesCancelled
    else
      .returnsNormally
  | .raisesOther e => .raisesOther e
  | .returnsValue =>
    .raisesRuntimeError ("Cancelled task did not end with an exception: " ++ taskRepr)

/-! ## Model of `merge_dicts` (utils.py lines 60-70)

Python dictionaries are modelled as insertion-ordered association lists
(`PyDict`); values are nested dicts or scalar leaves. `dict[key] = value`
replaces in place when the key is present and appends otherwise, exactly
like CPython's ordered dicts. -/

/-- A Python value as far as `merge_dicts` distinguishes them: a dict
(ordered key/value list) or a non-dict scalar leaf. -/
inductive Val where
  | dict : List (String × Val) → Val
  | str : String → Val
  | int : Int → Val

/-- Insertion-ordered model of a Python `dict[str, Any]`. -/
abbrev PyDict := List (String × Val)

/-- Dictionary lookup `d[key]` / `key in d` (first binding wins). -/
def lookupVal : PyDict → String → Option Val
  | [], _ => none
  | (k, v) :: rest, key => if k = key then some v else lookupVal rest key

/-- Assignment `d[key] = v` on an ordered dict: replace in place when the
key is present, append at the end otherwise. -/
def setItem : PyDict → String → Val → PyDict
  | [], key, v => [(key, v)]
  | (k, w) :: rest, key, v =>
    if k = key then (key, v) :: rest else (k, w) :: setItem rest key v

mutual

/-- Shallow embedding of `merge_dicts(from_this=..., into_this=...)`,
returning the final state of `into_this` (the Python function mutates it in
place): one `mergeStep` per entry of `from_this`, in order. -/
def mergeDicts : PyDict → PyDict → PyDict
  | [], into_this => into_this
  | (key, value) :: rest, into_this => mergeDicts rest (mergeStep key value into_this)
termination_by from_this _ => sizeOf from_this

/-- One iteration of the `merge_dicts` loop body for the entry
`(key, value)` of `from_this`: a missing key is inserted (appended); when
both values are dicts they are merged recursively; otherwise the
`from_this` value overwrites. -/
def mergeStep (key : String) (value : Val) (into_this : PyDict) : PyDict :=
  match lookupVal into_this key, value with
  | none, _ => into_this ++ [(key, value)]
  | some (Val.dict dw), Val.dict dv => setItem into_this key (Val.dict (mergeDicts dv dw))
  | some _, _ => setItem into_this key value
termination_by sizeOf value

end

/-- The key list of a dict, in insertion order. -/
def keysOf (d : PyDict) : List String := d.map Prod.fst

/-- Well-formedness of a Python value: every dict reachable inside it has
pairwise-distinct keys (an invariant every real Python dict satisfies). -/
def wfVal : Val → Bool
  | .dict [] => true
  | .dict ((k, v) :: rest) => !((keysOf rest).contains k) && wfVal v && wfVal (.dict rest)
  | .str _ => true
  | .int _ => true
termination_by v => sizeOf v
decreasing_by
  all_goals simp_wf
  all_goals omega

/-- Well-formedness of a dict (distinct keys, recursively). -/
def wfDict (d : PyDict) : Bool := wfVal (.dict d)

/-- Concrete `from_this` dict used to witness the merge laws. -/
def mergeWitnessFrom : PyDict :=
  [("a", Val.int 1), ("b", Val.dict [("c", Val.int 2)]), ("d", Val.str "x")]

/-- Concrete `into_this` dict used to witness the merge laws. -/
def mergeWitnessInto : PyDict :=
  [("b", Val.dict [("c", Val.int 9), ("e", Val.int 3)]), ("d", Val.int 7), ("z", Val.str "q")]

/-! ## Model of `ContextLogger` (utils.py lines 73-244)

The logger object is modelled by the mutable state the claims depend on
(`_msg`, `_status_mode`, `_postfixes`, `ping`, `__running`); the private
`__start` timestamp is replaced by passing the measured elapsed seconds to
the exit hook directly.  A call of the private `_log` method is modelled as
a `LogLine` record carrying the tag, the postfix list and elapsed value at
emission time, and the fully rendered text. -/

/-- The logger state: message, status-mode flag, ordered postfix list, ping
interval in seconds (`0` models `ping <= 0`), and the running flag. -/
structure ContextLogger where
  msg : String
  statusMode : Bool
  postfixes : List String
  ping : Nat
  running : Bool
deriving DecidableEq, Repr

/-- Fresh logger as built by `ContextLogger.__init__`. -/
def mkContextLogger (msg : String) (status : Bool) (ping : Nat) : ContextLogger :=
  { msg := msg, statusMode := status, postfixes := [], ping := ping, running := false }

/-- One emitted log record (`_log` call): tag, postfixes and elapsed at
emission time, plus the rendered line. -/
structure LogLine where
  tag : String
  postfixes : List String
  elapsed : Option Nat
  text : String
deriving DecidableEq, Repr

/-- `str.ljust(w)`: pad on the right with spaces up to width `w`. -/
def ljust (s : String) (w : Nat) : String :=
  s ++ String.mk (List.replicate (w - s.length) " ".front)

/-- `ContextLogger._prefix(tag)` = `f"[{tag.ljust(11)}]"`. -/
def prefixOf (tag : String) : String := "[" ++ ljust tag 11 ++ "]"

/-- Seconds component of `_format_elapsed` (`jump_sec = 300`,
`sec_in_min = 60`): the whole duration below the jump threshold, the
remainder modulo a minute above it. -/
def elapsedSeconds (total : Nat) : Nat :=
  if total ≤ 300 then total else total % 60

/-- The `remaining` value after the seconds step, in minutes. -/
def elapsedRem1 (total : Nat) : Nat := (total - elapsedSeconds total) / 60

/-- Minutes component of `_format_elapsed` (`jump_min = 60`,
`min_in_hour = 60`). -/
def elapsedMinutes (total : Nat) : Nat :=
  if elapsedRem1 total ≤ 60 then elapsedRem1 total else elapsedRem1 total % 60

/-- The `remaining` value after the minutes step, in hours. -/
def elapsedRem2 (total : Nat) : Nat := (elapsedRem1 total - elapsedMinutes total) / 60

/-- Hours component of `_format_elapsed` (`jump_hour = 96`,
`hour_in_day = 24`). -/
def elapsedHours (total : Nat) : Nat :=
  if elapsedRem2 total ≤ 96 then elapsedRem2 total else elapsedRem2 total % 24

/-- Days component of `_format_elapsed`. -/
def elapsedDays (total : Nat) : Nat := (elapsedRem2 total - elapsedHours total) / 24

/-- `ContextLogger._format_elapsed`: `None` renders as the empty string;
otherwise the elapsed whole seconds are split into the components above and
a unit is printed only when it or some higher unit is positive (seconds
always). -/
def format_elapsed (elapsed : Option Nat) : String :=
  match elapsed with
  | none => ""
  | some total =>
    let res :=
      (if 0 < elapsedDays total then toString (elapsedDays total) ++ "d " else "")
      ++ (if 0 < elapsedDays total || 0 < elapsedHours total then
            toString (elapsedHours total) ++ "h " else "")
      ++ (if 0 < elapsedDays total || 0 < elapsedHours total || 0 < elapsedMinutes total then
            toString (elapsedMinutes total) ++ "m " else "")
      ++ (toString (elapsedSeconds total) ++ "s")
    " [" ++ res ++ "]"

/-- `ContextLogger._format`: prefix, left-stripped message, space-joined
postfixes and the elapsed suffix, with the whole line stripped. -/
def format_line (message : String) (tag : String) (postfixes : List String)
    (elapsed : Option Nat) : String :=
  (prefixOf tag ++ " " ++ message.trimLeft ++ " " ++ String.intercalate " " postfixes
    ++ " " ++ format_elapsed elapsed).trim

/-- A `self._log(tag, elapsed)` call of the given logger state. -/
def logRecord (l : ContextLogger) (tag : String) (elapsed : Option Nat) : LogLine :=
  { tag := tag, postfixes := l.postfixes, elapsed := elapsed,
    text := format_line l.msg tag l.postfixes elapsed }

/-- `ContextLogger.add_postfix`: append to the ordered postfix list. -/
def addPostfix (l : ContextLogger) (message : String) : ContextLogger :=
  { l with postfixes := l.postfixes ++ [message] }

/-- `ContextLogger.__enter__`: raises `RuntimeError` when already running;
otherwise marks the logger running and, unless in status mode, emits one
`STARTED` line.  Returns the new state and the emitted lines. -/
def enterScope (l : ContextLogger) : Except String (ContextLogger × List LogLine) :=
  if l.running then
    .error "Cannot start the same ContextLogger object if already in progress!"
  else
    let l1 := { l with running := true }
    if l1.statusMode then .ok (l1, [])
    else .ok (l1, [logRecord l1 "STARTED" none])

/-- `ContextLogger.__exit__`: clears the running flag; tag starts as
`FINISHED` with the measured elapsed time, becomes `STATUS` with no elapsed
in status mode, and becomes `EXCEPTION` (appending the exception-name
postfix) when the body raised; exactly one line is then logged.
`exc` carries the raised exception's type name, `none` for a clean body. -/
def exitScope (l : ContextLogger) (elapsedSec : Nat) (exc : Option String) :
    ContextLogger × List LogLine :=
  let l1 := { l with running := false }
  let te : String × Option Nat :=
    if l1.statusMode then ("STATUS", none) else ("FINISHED", some elapsedSec)
  match exc with
  | none => (l1, [logRecord l1 te.1 te.2])
  | some name =>
    let l2 := addPostfix l1 ("- [" ++ name ++ "]")
    (l2, [logRecord l2 "EXCEPTION" te.2])

/-- Lines emitted by the `_ping` background task after `k` completed sleep
intervals: the body of `_ping` sleeps `ping` seconds and then logs
`IN PROGRESS` with the elapsed time, so the `i`-th line fires at elapsed
`(i+1) * ping`. -/
def pingLines (l : ContextLogger) (k : Nat) : List LogLine :=
  (List.range k).map (fun i => logRecord l "IN PROGRESS" (some ((i + 1) * l.ping)))

/-- Cooperative trace of one async scope (`__aenter__` body, `k` ping
firings during the body, then `__aexit__`), for a single-threaded
cooperative scheduler: `__aenter__` runs `__enter__` and starts the ping
task when `ping > 0` and not in status mode; `__aexit__` first cancels and
awaits the ping task via `cancel_and_wait` (the task is suspended in
`asyncio.sleep`, so it terminates by raising `CancelledError`) and only
then runs `__exit__`.  `ctx` is the caller context seen by that
`cancel_and_wait` call; if it makes `cancel_and_wait` raise, `__exit__` is
never reached and the error propagates. -/
def runAsyncScope (l : ContextLogger) (k : Nat) (ctx : CallerCtx) (elapsedSec : Nat)
    (exc : Option String) : Except String (ContextLogger × List LogLine) :=
  match enterScope l with
  | .error e => .error e
  | .ok (l1, startLines) =>
    let pingStarted := 0 < l1.ping && !l1.statusMode
    let bodyLines := if pingStarted then pingLines l1 k else []
    if pingStarted then
      match cancel_and_wait "ping task" none .raisesCancelled ctx with
      | .returnsNormally =>
        let e := exitScope l1 elapsedSec exc
        .ok (e.1, startLines ++ bodyLines ++ e.2)
      | _ => .error "cancel_and_wait raised while awaiting the ping task"
    else
      let e := exitScope l1 elapsedSec exc
      .ok (e.1, startLines ++ bodyLines ++ e.2)

/-! ## Model of `retry` (utils.py lines 391-427) -/

/-- Result of one call of a `retry`-wrapped function: the returned value or
the re-raised final error, each with the total number of invocations of the
underlying function; `unreachableAssertion` models the `AssertionError`
after the loop. -/
inductive RetryOutcome (E R : Type) where
  | ok : R → Nat → RetryOutcome E R
  | raised : E → Nat → RetryOutcome E R
  | unreachableAssertion : RetryOutcome E R
deriving DecidableEq, Repr

/-- The `for i in range(max_tries)` loop of the wrapper, started at index
`i`: call `func`; on success return its value; on an exception re-raise it
when `i + 1 >= max_tries` and otherwise (after logging and sleeping) go to
the next iteration.  `f n` is the outcome of the `n`-th call. -/
def retryFrom {E R : Type} (f : Nat → Except E R) (maxTries : Nat) (i : Nat) :
    RetryOutcome E R :=
  if i < maxTries then
    match f i with
    | .ok r => .ok r (i + 1)
    | .error e => if maxTries ≤ i + 1 then .raised e (i + 1) else retryFrom f maxTries (i + 1)
  else .unreachableAssertion
termination_by maxTries - i

/-- The `retry` decorator applied to a function and then called once:
`max_tries <= 0` raises `ValueError` at decoration time, before any call of
the wrapped function; otherwise the wrapper loop runs. -/
def retry {E R : Type} (maxTries : Int) (f : Nat → Except E R) :
    Except String (RetryOutcome E R) :=
  if maxTries ≤ 0 then .error s!"max_tries must be greater than 0, got {maxTries}"
  else .ok (retryFrom f maxTries.toNat 0)

/-! ## Model of `shell_command` / `run_shell` (utils.py lines 247-368)

Paths are modelled as the strings `str(p)` produces; the ambient working
directory enters only through `cwdRel`, the precomputed
`os.path.relpath(cwd, Path.cwd())` (with `none` when `cwd` is absent or
equal to the current directory); the ambient process environment
`os.environ` is an explicit parameter of `run_shell`. -/

/-- The single-quote character, written by code point to keep source
quoting unambiguous. -/
def squoteChar : Char := Char.ofNat 39

/-- The single-quote string. -/
def squote : String := String.singleton squoteChar

/-- Characters `shlex.quote` considers safe (`re.ASCII` word characters
plus at-sign, percent, plus, equals, colon, comma, dot, slash and hyphen);
anything else is a shell metacharacter that forces quoting. -/
def shlexSafeChar (c : Char) : Bool :=
  c.isAlphanum || c = Char.ofNat 95 || c = '@' || c = '%' || c = '+' || c = '=' ||
    c = ':' || c = ',' || c = '.' || c = '/' || c = '-'

/-- `shlex.quote(s)`: the empty string quotes to two single quotes; a
string of safe characters is returned unchanged; otherwise the string is
wrapped in single quotes with every embedded single quote replaced by
the sequence quote, double-quoted quote, quote. -/
def shlexQuote (s : String) : String :=
  if s.data.isEmpty then squote ++ squote
  else if s.data.all shlexSafeChar then s
  else squote ++ (s.replace squote (squote ++ "\"" ++ squote ++ "\"" ++ squote)) ++ squote

/-- `_paths2shell`: rejects any path containing a colon, otherwise joins
the paths with colons. -/
def paths2shell (paths : List String) : Except String String :=
  if paths.any (fun p => p.contains ":".front) then
    .error "Cannot handle colon in paths for extra_paths argument for `run_shell`!"
  else
    .ok (String.intercalate ":" paths)

/-- `shell_command`: renders the bash equivalent of the `subprocess.run`
invocation.  Raises `ValueError` when `extra_env` contains `PATH`; then the
colon check on `extra_paths` runs; then the display string is assembled
from the optional `cd` part, the quoted extra environment assignments, the
`PATH` extension, the quoted command words and the capture marker, and
finally stripped. -/
def shell_command (cmd : List String) (extra_env : List (String × String))
    (extra_paths : List String) (capture_output : Bool) (cwdRel : Option String) :
    Except String String :=
  if (extra_env.map Prod.fst).contains "PATH" then
    .error "Do not pass PATH to extra_env. Use extra_paths instead."
  else
    match paths2shell extra_paths with
    | .error e => .error e
    | .ok extraPathsStr =>
      let cdPart :=
        match cwdRel with
        | some c => "cd " ++ shlexQuote c ++ " && "
        | none => ""
      let envPart :=
        String.join (extra_env.map (fun p => shlexQuote p.1 ++ "=" ++ shlexQuote p.2 ++ " "))
      let pathPart :=
        if extra_paths.isEmpty then "" else "PATH=\"" ++ extraPathsStr ++ ":$\x7bPATH\x7d\" "
      let cmdPart := String.intercalate " " (cmd.map shlexQuote)
      let captPart := if capture_output then " &> CAPTURED" else ""
      .ok (cdPart ++ envPart ++ pathPart ++ cmdPart ++ captPart).trim

/-- Environment lookup (`"PATH" in env` / `env["PATH"]`). -/
def envGet : List (String × String) → String → Option String
  | [], _ => none
  | (k, v) :: rest, key => if k = key then some v else envGet rest key

/-- Environment assignment `env[key] = v` (replace in place or append). -/
def envSet : List (String × String) → String → String → List (String × String)
  | [], key, v => [(key, v)]
  | (k, w) :: rest, key, v =>
    if k = key then (key, v) :: rest else (k, w) :: envSet rest key v

/-- `env.update(extra)`: assign every binding of `extra` in order. -/
def envUpdate (env extra : List (String × String)) : List (String × String) :=
  extra.foldl (fun acc p => envSet acc p.1 p.2) env

/-- The `subprocess.run` invocation `run_shell` would perform: its
argument vector, final environment, flags and working directory. -/
structure RunSpec where
  cmd : List String
  env : List (String × String)
  check : Bool
  captureOutput : Bool
  cwd : Option String
deriving DecidableEq, Repr

/-- `run_shell`: copies the ambient environment and applies `extra_env`,
joins and strips `extra_paths` (colon check), prepends them to the
inherited `PATH` when non-empty, renders the display command via
`shell_command` (which re-checks `PATH` in `extra_env`), and only then
reaches the `subprocess.run` call, returned here as a `RunSpec`.  Any
`ValueError` on the way out aborts before a process is spawned. -/
def run_shell (environ : List (String × String)) (cmd : List String)
    (extra_env : List (String × String)) (extra_paths : List String)
    (capture_output : Bool) (cwdRel : Option String) (check : Bool) :
    Except String RunSpec :=
  let env0 := envUpdate environ extra_env
  match paths2shell extra_paths with
  | .error e => .error e
  | .ok joined =>
    let extraPathsStr := joined.trim
    let env1 :=
      if extraPathsStr = "" then env0
      else
        let withInherited :=
          match envGet env0 "PATH" with
          | some p => if p.trim = "" then extraPathsStr else extraPathsStr ++ ":" ++ p
          | none => extraPathsStr
        envSet env0 "PATH" withInherited
    match shell_command cmd extra_env extra_paths capture_output cwdRel with
    | .error e => .error e
    | .ok _printCmd =>
      .ok { cmd := cmd, env := env1, check := check, captureOutput := capture_output,
            cwd := cwdRel }

/-! ## Theorems -/

/-- C1: for every task representation and optional reason, when the awaited
target task terminates by raising the cancellation signal and the runtime
supports the pending-cancellation query, `cancel_and_wait` returns normally
exactly when the caller has no pending unconsumed cancellation, re-raises
`CancelledError` exactly when the caller's own task was cancelled while
waiting (positive pending-cancellation count), and never does both and
never neither. -/
theorem cancel_and_wait_dichotomy (taskRepr : String) (msg : Option String)
    (ctx : CallerCtx) (h311 : ctx.py311 = true) (hcur : ctx.hasCurrentTask = true) :
    (cancel_and_wait taskRepr msg .raisesCancelled ctx = .returnsNormally
      ↔ ctx.cancelling = 0)
    ∧ (cancel_and_wait taskRepr msg .raisesCancelled ctx = .raisesCancelled
      ↔ 0 < ctx.cancelling)
    ∧ ¬(cancel_and_wait taskRepr msg .raisesCancelled ctx = .returnsNormally
        ∧ cancel_and_wait taskRepr msg .raisesCancelled ctx = .raisesCancelled) := by
  cases hc : ctx.cancelling with
  | zero => simp [cancel_and_wait, h311, hcur, hc]
  | succ n => simp [cancel_and_wait, h311, hcur, hc]

/-- Witness for C1: concrete modern runtime contexts with pending count 0
and 1. -/
theorem cancel_and_wait_dichotomy_witness :
    CallerCtx.py311 ⟨true, true, 0⟩ = true
    ∧ (cancel_and_wait "<Task A>" (some "stop") .raisesCancelled ⟨true, true, 0⟩
        = .returnsNormally ↔ CallerCtx.cancelling ⟨true, true, 0⟩ = 0)
    ∧ (cancel_and_wait "<Task A>" (some "stop") .raisesCancelled ⟨true, true, 1⟩
        = .raisesCancelled ↔ 0 < CallerCtx.cancelling ⟨true, true, 1⟩) :=
  ⟨rfl,
   (cancel_and_wait_dichotomy "<Task A>" (some "stop") ⟨true, true, 0⟩ rfl rfl).1,
   (cancel_and_wait_dichotomy "<Task A>" (some "stop") ⟨true, true, 1⟩ rfl rfl).2.1⟩

/-- C2: for every task that terminates without raising the cancellation
signal (it returns a value, having suppressed its cancellation),
`cancel_and_wait` raises a `RuntimeError` whose message names the offending
task, in every runtime context. -/
theorem cancel_and_wait_suppressed_runtime_error (taskRepr : String)
    (msg : Option String) (ctx : CallerCtx) :
    cancel_and_wait taskRepr msg .returnsValue ctx
      = .raisesRuntimeError ("Cancelled task did not end with an exception: " ++ taskRepr) :=
  rfl

/-- C7: a function failing on its first two calls and succeeding on the
third, wrapped with `max_tries = 5`, returns the success value after
exactly 3 invocations; a function that always raises, with `max_tries = 3`,
makes the wrapper re-raise the third call's original error after exactly 3
invocations; and `retry` with `max_tries <= 0` is rejected with a
`ValueError` at decoration time, before any call. -/
theorem retry_spec_scenarios {E R : Type} (e : Nat → E) (v : R) (f : Nat → Except E R)
    (maxTries : Int) (hle : maxTries ≤ 0) :
    retry 5 (fun i => if i < 2 then Except.error (e i) else Except.ok v)
      = Except.ok (RetryOutcome.ok v 3)
    ∧ retry 3 (fun i => (Except.error (e i) : Except E R))
      = Except.ok (RetryOutcome.raised (e 2) 3)
    ∧ retry maxTries f = Except.error s!"max_tries must be greater than 0, got {maxTries}" := by
  refine ⟨?_, ?_, ?_⟩
  · simp [retry, retryFrom]
  · simp [retry, retryFrom]
  · simp [retry, hle]

/-- Witness for C7 at concrete error/value types. -/
theorem retry_spec_scenarios_witness :
    ((-1 : Int) ≤ 0)
    ∧ retry 5 (fun i => if i < 2 then Except.error (toString i) else Except.ok (42 : Nat))
      = Except.ok (RetryOutcome.ok 42 3)
    ∧ retry (-1) (fun _ => (Except.error "boom" : Except String Nat))
      = Except.error "max_tries must be greater than 0, got -1" :=
  ⟨by decide,
   (retry_spec_scenarios (fun i => toString i) (42 : Nat)
      (fun _ => (Except.error "boom" : Except String Nat)) (-1) (by decide)).1,
   (retry_spec_scenarios (fun i => toString i) (42 : Nat)
      (fun _ => (Except.error "boom" : Except String Nat)) (-1) (by decide)).2.2⟩

/-- C3 counterexample: a status-mode scope whose body raised emits exactly
one line, tagged `EXCEPTION` — no `STATUS` line at all, contradicting the
claim that an `EXCEPTION` line precedes a `STATUS` line on such an exit. -/
theorem status_mode_exception_counterexample :
    ((exitScope { mkContextLogger "task" true 0 with running := true } 5
        (some "RuntimeError")).2.map LogLine.tag = ["EXCEPTION"])
    ∧ ((exitScope { mkContextLogger "task" true 0 with running := true } 5
        (some "RuntimeError")).2.countP (fun x => x.tag == "STATUS") = 0) := by
  constructor <;> rfl

/-- C3 (amended): for every `ContextLogger` with `status = True`, scope
entry emits no line at all, and scope exit emits exactly one line with no
elapsed time: tagged `STATUS` when the body completed normally, and tagged
`EXCEPTION` (replacing `STATUS`, not preceding it) when the body raised;
`STARTED` and `FINISHED` are never emitted in status mode. -/
theorem status_mode_scope_lines (l : ContextLogger) (elapsedSec : Nat)
    (exc : Option String) (hst : l.statusMode = true) (hrun : l.running = false) :
    enterScope l = Except.ok ({ l with running := true }, [])
    ∧ ((exitScope { l with running := true } elapsedSec exc).2.map LogLine.tag
        = [if exc.isSome then "EXCEPTION" else "STATUS"])
    ∧ ((exitScope { l with running := true } elapsedSec exc).2.map LogLine.elapsed
        = [none]) := by
  refine ⟨?_, ?_, ?_⟩
  · simp [enterScope, hst, hrun, logRecord, Except.map]
  · cases exc <;> simp [exitScope, hst, addPostfix, logRecord]
  · cases exc <;> simp [exitScope, hst, addPostfix, logRecord]

/-- Witness for C3's amended theorem: a concrete status-mode logger,
exercised with a clean body and with a raising body. -/
theorem status_mode_scope_lines_witness :
    (mkContextLogger "task" true 0).statusMode = true
    ∧ ((exitScope { mkContextLogger "task" true 0 with running := true } 5 none).2.map
        LogLine.tag = [if (none : Option String).isSome then "EXCEPTION" else "STATUS"])
    ∧ ((exitScope { mkContextLogger "task" true 0 with running := true } 7
        (some "ValueError")).2.map LogLine.tag
        = [if (some "ValueError").isSome then "EXCEPTION" else "STATUS"]) :=
  ⟨rfl, (status_mode_scope_lines (mkContextLogger "task" true 0) 5 none rfl rfl).2.1,
   (status_mode_scope_lines (mkContextLogger "task" true 0) 7 (some "ValueError") rfl rfl).2.1⟩

/-- C5: for every `ContextLogger` in normal mode, a scope entry emits
exactly one `STARTED` line, and a scope exit emits exactly one terminal
line: `FINISHED` when the body completed normally, `EXCEPTION` when it
raised — regardless of whether an exception propagated through the scope
(`l1` is the arbitrary state the scope body left at exit time). -/
theorem normal_mode_scope_lines (l l1 : ContextLogger) (elapsedSec : Nat)
    (exc : Option String) (hst : l.statusMode = false) (hrun : l.running = false)
    (hst1 : l1.statusMode = false) :
    ((enterScope l).map (fun r => r.2.map LogLine.tag) = Except.ok ["STARTED"])
    ∧ (exitScope l1 elapsedSec exc).2.map LogLine.tag
        = [if exc.isSome then "EXCEPTION" else "FINISHED"]
    ∧ (exitScope l1 elapsedSec exc).2.length = 1 := by
  refine ⟨?_, ?_, ?_⟩
  · simp [enterScope, hst, hrun, logRecord, Except.map]
  · cases exc <;> simp [exitScope, hst1, addPostfix, logRecord]
  · cases exc <;> simp [exitScope, hst1, addPostfix, logRecord]

/-- Witness for C5: a concrete normal-mode logger entered fresh, exited
once cleanly and once with a raised exception. -/
theorem normal_mode_scope_lines_witness :
    (mkContextLogger "task" false 60).statusMode = false
    ∧ ((enterScope (mkContextLogger "task" false 60)).map
        (fun r => r.2.map LogLine.tag) = Except.ok ["STARTED"])
    ∧ (exitScope { mkContextLogger "task" false 60 with running := true } 5 none).2.map
        LogLine.tag = [if (none : Option String).isSome then "EXCEPTION" else "FINISHED"]
    ∧ (exitScope { mkContextLogger "task" false 60 with running := true } 5
        (some "RuntimeError")).2.map LogLine.tag
        = [if (some "RuntimeError").isSome then "EXCEPTION" else "FINISHED"] :=
  ⟨rfl,
   (normal_mode_scope_lines (mkContextLogger "task" false 60)
      { mkContextLogger "task" false 60 with running := true } 5 none rfl rfl rfl).1,
   (normal_mode_scope_lines (mkContextLogger "task" false 60)
      { mkContextLogger "task" false 60 with running := true } 5 none rfl rfl rfl).2.1,
   (normal_mode_scope_lines (mkContextLogger "task" false 60)
      { mkContextLogger "task" false 60 with running := true } 5 (some "RuntimeError")
      rfl rfl rfl).2.1⟩

/-- C9: in the exit line's compact duration rendering, a duration of at
most 300 seconds renders as seconds only; any larger duration includes a
minutes component; and a duration strictly between the seconds jump
(300 s) and the point where total minutes exceed 60 renders as minutes and
seconds only (no hours, no days). -/
theorem format_elapsed_unit_thresholds (n m p : Nat) (hn : n ≤ 300) (hm : 300 < m)
    (hp1 : 300 < p) (hp2 : p < 3660) :
    format_elapsed (some n) = " [" ++ (toString n ++ "s") ++ "]"
    ∧ (∃ pre : String, format_elapsed (some m)
        = " [" ++ pre ++ (toString (elapsedMinutes m) ++ "m ")
          ++ (toString (m % 60) ++ "s") ++ "]")
    ∧ format_elapsed (some p)
        = " [" ++ (toString ((p - p % 60) / 60) ++ "m ")
          ++ (toString (p % 60) ++ "s") ++ "]" := by
  refine ⟨?_, ?_, ?_⟩
  · have h1 : elapsedSeconds n = n := by simp [elapsedSeconds, hn]
    have h2 : elapsedRem1 n = 0 := by simp [elapsedRem1, h1]
    have h3 : elapsedMinutes n = 0 := by simp [elapsedMinutes, h2]
    have h4 : elapsedRem2 n = 0 := by simp [elapsedRem2, h2, h3]
    have h5 : elapsedHours n = 0 := by simp [elapsedHours, h4]
    have h6 : elapsedDays n = 0 := by simp [elapsedDays, h4, h5]
    simp [format_elapsed, h1, h3, h5, h6]
  · have h1 : elapsedSeconds m = m % 60 := by
      unfold elapsedSeconds
      rw [if_neg (by omega)]
    have hflag : 0 < elapsedDays m ∨ 0 < elapsedHours m ∨ 0 < elapsedMinutes m := by
      simp only [elapsedDays, elapsedHours, elapsedMinutes, elapsedRem2, elapsedRem1, h1]
      by_cases hA : (m - m % 60) / 60 ≤ 60
      · simp only [hA, if_true]
        omega
      · simp only [hA, if_false]
        by_cases hB : ((m - m % 60) / 60 - (m - m % 60) / 60 % 60) / 60 ≤ 96 <;>
          simp [hB] <;> omega
    have hif : (0 < elapsedDays m || 0 < elapsedHours m || 0 < elapsedMinutes m) = true := by
      rcases hflag with h | h | h <;> simp [h]
    refine ⟨(if 0 < elapsedDays m then toString (elapsedDays m) ++ "d " else "")
      ++ (if 0 < elapsedDays m || 0 < elapsedHours m then
            toString (elapsedHours m) ++ "h " else ""), ?_⟩
    simp only [format_elapsed, h1, hif, if_true]
    apply String.ext
    simp
  · have h1 : elapsedSeconds p = p % 60 := by
      unfold elapsedSeconds
      rw [if_neg (by omega)]
    have h2 : elapsedRem1 p = (p - p % 60) / 60 := by simp [elapsedRem1, h1]
    have hr : (p - p % 60) / 60 ≤ 60 := by omega
    have h3 : elapsedMinutes p = (p - p % 60) / 60 := by simp [elapsedMinutes, h2, hr]
    have h4 : elapsedRem2 p = 0 := by simp [elapsedRem2, h2, h3]
    have h5 : elapsedHours p = 0 := by simp [elapsedHours, h4]
    have h6 : elapsedDays p = 0 := by simp [elapsedDays, h4, h5]
    have hmp : 0 < (p - p % 60) / 60 := by omega
    simp [format_elapsed, h1, h3, h5, h6, hmp]
    apply String.ext
    simp

/-- Witness for C9: durations 300 s (seconds only) and 301 s (minutes and
seconds appear). -/
theorem format_elapsed_unit_thresholds_witness :
    (300 : Nat) ≤ 300 ∧ (300 : Nat) < 301
    ∧ format_elapsed (some 300) = " [" ++ (toString 300 ++ "s") ++ "]"
    ∧ format_elapsed (some 301)
        = " [" ++ (toString ((301 - 301 % 60) / 60) ++ "m ")
          ++ (toString (301 % 60) ++ "s") ++ "]" :=
  ⟨by decide, by decide,
   (format_elapsed_unit_thresholds 300 301 301 (by decide) (by decide) (by decide)
      (by decide)).1,
   (format_elapsed_unit_thresholds 300 301 301 (by decide) (by decide) (by decide)
      (by decide)).2.2⟩

/-- C10: exiting a scope resets only the running flag (message,
status-mode flag and ping are unchanged, the postfix list is not cleared —
it only gains the auto-appended exception-name postfix when the body
raised), so the same object can be re-entered after exit, and every
postfix of the earlier scope, including the exception-name postfix,
reappears in the exit line of the subsequent scope. -/
theorem exitScope_keeps_postfixes_reentry (l : ContextLogger) (e1 e2 : Nat)
    (n : String) (exc2 : Option String) (hrun : l.running = true) :
    (exitScope l e1 (some n)).1.running = false
    ∧ (exitScope l e1 (some n)).1.postfixes = l.postfixes ++ ["- [" ++ n ++ "]"]
    ∧ (exitScope l e1 (some n)).1.msg = l.msg
    ∧ (exitScope l e1 (some n)).1.statusMode = l.statusMode
    ∧ (exitScope l e1 (some n)).1.ping = l.ping
    ∧ (enterScope (exitScope l e1 (some n)).1).isOk = true
    ∧ (∀ x ∈ (exitScope { (exitScope l e1 (some n)).1 with running := true } e2 exc2).2,
        (l.postfixes ++ ["- [" ++ n ++ "]"]) <+: x.postfixes
        ∧ x.text = format_line l.msg x.tag x.postfixes x.elapsed) := by
  refine ⟨?_, ?_, ?_, ?_, ?_, ?_, ?_⟩
  · simp [exitScope, addPostfix]
  · simp [exitScope, addPostfix]
  · simp [exitScope, addPostfix]
  · simp [exitScope, addPostfix]
  · simp [exitScope, addPostfix]
  · by_cases hst : l.statusMode <;>
      simp [enterScope, exitScope, addPostfix, hst, Except.isOk, Except.toBool]
  · intro x hx
    by_cases hst : l.statusMode <;> cases exc2 <;>
      simp_all [exitScope, addPostfix, logRecord, format_line]

/-- Witness for C10: a running logger with one postfix, exited with a
`ValueError`, then re-entered and exited again. -/
theorem exitScope_keeps_postfixes_reentry_witness :
    ContextLogger.running
      { mkContextLogger "task" false 60 with running := true, postfixes := ["postinfo"] }
      = true
    ∧ (exitScope
        { mkContextLogger "task" false 60 with running := true, postfixes := ["postinfo"] }
        5 (some "ValueError")).1.postfixes
      = ["postinfo"] ++ ["- [" ++ "ValueError" ++ "]"]
    ∧ (enterScope (exitScope
        { mkContextLogger "task" false 60 with running := true, postfixes := ["postinfo"] }
        5 (some "ValueError")).1).isOk = true :=
  ⟨rfl,
   (exitScope_keeps_postfixes_reentry
      { mkContextLogger "task" false 60 with running := true, postfixes := ["postinfo"] }
      5 9 "ValueError" none rfl).2.1,
   (exitScope_keeps_postfixes_reentry
      { mkContextLogger "task" false 60 with running := true, postfixes := ["postinfo"] }
      5 9 "ValueError" none rfl).2.2.2.2.2.1⟩

/-- C8: `shell_command` renders the command by shell-quoting every word
(an argument containing a shell metacharacter, i.e. a character outside
the safe set, is wrapped in single quotes with inner quotes escaped), and
both `shell_command` and `run_shell` reject an `extra_env` containing the
key `PATH` with a `ValueError` before any process is executed (the
returned value is an error, never a `RunSpec`). -/
theorem shell_quoting_and_path_rejection (cmd cmd2 : List String) (s : String) (c : Char)
    (environ extra_env : List (String × String)) (extra_paths : List String)
    (capture_output check : Bool) (cwdRel : Option String)
    (hc : c ∈ s.data) (hbad : shlexSafeChar c = false)
    (hPATH : (extra_env.map Prod.fst).contains "PATH" = true) :
    shell_command cmd [] [] false none
      = Except.ok ((String.intercalate " " (cmd.map shlexQuote)).trim)
    ∧ shlexQuote s
      = squote ++ (s.replace squote (squote ++ "\"" ++ squote ++ "\"" ++ squote)) ++ squote
    ∧ shell_command cmd2 extra_env extra_paths capture_output cwdRel
      = Except.error "Do not pass PATH to extra_env. Use extra_paths instead."
    ∧ ∃ m, run_shell environ cmd2 extra_env extra_paths capture_output cwdRel check
      = Except.error m := by
  have hsc : shell_command cmd2 extra_env extra_paths capture_output cwdRel
      = Except.error "Do not pass PATH to extra_env. Use extra_paths instead." := by
    unfold shell_command
    rw [if_pos hPATH]
  refine ⟨?_, ?_, hsc, ?_⟩
  · have hx : "" ++ "" ++ "" ++ (String.intercalate " " (cmd.map shlexQuote)) ++ ""
        = String.intercalate " " (cmd.map shlexQuote) := by
      apply String.ext
      simp
    simp [shell_command, paths2shell, String.join, hx]
  · have h1 : s.data.isEmpty = false := by
      cases hd : s.data with
      | nil => rw [hd] at hc; cases hc
      | cons a t => rfl
    have h2 : s.data.all shlexSafeChar = false := by
      rw [List.all_eq_false]
      exact ⟨c, hc, by simp [hbad]⟩
    unfold shlexQuote
    simp [h1, h2]
  · cases hps : paths2shell extra_paths with
    | error e =>
      refine ⟨e, ?_⟩
      unfold run_shell
      rw [hps]
    | ok j =>
      refine ⟨"Do not pass PATH to extra_env. Use extra_paths instead.", ?_⟩
      unfold run_shell
      rw [hps, hsc]

/-- Witness for C8: the argument `"a b"` contains a space (a shell
metacharacter) and is quoted; `extra_env` containing `PATH` is rejected by
both functions. -/
theorem shell_quoting_and_path_rejection_witness :
    (Char.ofNat 32) ∈ "a b".data
    ∧ shlexSafeChar (Char.ofNat 32) = false
    ∧ (([("PATH", "/bin")].map (Prod.fst (α := String) (β := String))).contains "PATH"
        = true)
    ∧ shlexQuote "a b"
      = squote ++ ("a b".replace squote (squote ++ "\"" ++ squote ++ "\"" ++ squote))
        ++ squote
    ∧ shell_command ["echo"] [("PATH", "/bin")] [] false none
      = Except.error "Do not pass PATH to extra_env. Use extra_paths instead."
    ∧ ∃ m, run_shell [("HOME", "/root")] ["echo"] [("PATH", "/bin")] [] false none true
      = Except.error m :=
  ⟨by decide, by decide, by decide,
   (shell_quoting_and_path_rejection ["echo"] ["echo"] "a b" (Char.ofNat 32)
      [("HOME", "/root")] [("PATH", "/bin")] [] false true none
      (by decide) (by decide) (by decide)).2.1,
   (shell_quoting_and_path_rejection ["echo"] ["echo"] "a b" (Char.ofNat 32)
      [("HOME", "/root")] [("PATH", "/bin")] [] false true none
      (by decide) (by decide) (by decide)).2.2.1,
   (shell_quoting_and_path_rejection ["echo"] ["echo"] "a b" (Char.ofNat 32)
      [("HOME", "/root")] [("PATH", "/bin")] [] false true none
      (by decide) (by decide) (by decide)).2.2.2⟩

/-- C4: in the cooperative trace of an async scope with `ping > 0` and
`status = False`, entered fresh by a caller that is not itself being
cancelled: the ping task is started on entry and fires an `IN PROGRESS`
line with elapsed `(i+1) * ping` for each completed interval; on exit the
ping task is cancelled and awaited via `cancel_and_wait` (which returns
normally) before the terminal line is logged, so the trace is exactly
`STARTED`, then the `IN PROGRESS` lines, then the terminal
`FINISHED`/`EXCEPTION` line last — no `IN PROGRESS` line after it. -/
theorem async_scope_ping_trace (l : ContextLogger) (k : Nat) (ctx : CallerCtx)
    (elapsedSec : Nat) (exc : Option String) (hp : 0 < l.ping) (hst : l.statusMode = false)
    (hrun : l.running = false) (h311 : ctx.py311 = true) (hcur : ctx.hasCurrentTask = true)
    (hcan : ctx.cancelling = 0) :
    ∃ term : LogLine,
      runAsyncScope l k ctx elapsedSec exc
        = Except.ok ((exitScope { l with running := true } elapsedSec exc).1,
            [logRecord { l with running := true } "STARTED" none]
            ++ pingLines { l with running := true } k ++ [term])
      ∧ (exitScope { l with running := true } elapsedSec exc).2 = [term]
      ∧ term.tag = (if exc.isSome then "EXCEPTION" else "FINISHED")
      ∧ (∀ x ∈ pingLines { l with running := true } k,
          x.tag = "IN PROGRESS" ∧ ∃ i < k, x.elapsed = some ((i + 1) * l.ping))
      ∧ cancel_and_wait "ping task" none .raisesCancelled ctx = .returnsNormally := by
  have hcw : cancel_and_wait "ping task" none .raisesCancelled ctx = .returnsNormally := by
    simp [cancel_and_wait, h311, hcur, hcan]
  cases exc with
  | none =>
    refine ⟨logRecord { l with running := false } "FINISHED" (some elapsedSec),
      ?_, ?_, ?_, ?_, hcw⟩
    · simp [runAsyncScope, enterScope, hrun, hst, hp, hcw, exitScope, logRecord]
    · simp [exitScope, hst, logRecord]
    · simp [logRecord]
    · intro x hx
      simp [pingLines] at hx
      obtain ⟨i, hik, rfl⟩ := hx
      exact ⟨rfl, i, hik, rfl⟩
  | some nm =>
    refine ⟨logRecord (addPostfix { l with running := false } ("- [" ++ nm ++ "]"))
        "EXCEPTION" (some elapsedSec), ?_, ?_, ?_, ?_, hcw⟩
    · simp [runAsyncScope, enterScope, hrun, hst, hp, hcw, exitScope, logRecord, addPostfix]
    · simp [exitScope, hst, logRecord, addPostfix]
    · simp [logRecord]
    · intro x hx
      simp [pingLines] at hx
      obtain ⟨i, hik, rfl⟩ := hx
      exact ⟨rfl, i, hik, rfl⟩

/-- Witness for C4: a fresh logger with `ping = 1`, two ping firings, a
clean body, and an uncancelled modern caller. -/
theorem async_scope_ping_trace_witness :
    0 < (mkContextLogger "task" false 1).ping
    ∧ (mkContextLogger "task" false 1).statusMode = false
    ∧ CallerCtx.cancelling ⟨true, true, 0⟩ = 0
    ∧ ∃ term : LogLine,
        runAsyncScope (mkContextLogger "task" false 1) 2 ⟨true, true, 0⟩ 3 none
          = Except.ok
              ((exitScope { mkContextLogger "task" false 1 with running := true } 3 none).1,
               [logRecord { mkContextLogger "task" false 1 with running := true }
                  "STARTED" none]
               ++ pingLines { mkContextLogger "task" false 1 with running := true } 2
               ++ [term])
        ∧ (exitScope { mkContextLogger "task" false 1 with running := true } 3 none).2
            = [term]
        ∧ term.tag = (if (none : Option String).isSome then "EXCEPTION" else "FINISHED")
        ∧ (∀ x ∈ pingLines { mkContextLogger "task" false 1 with running := true } 2,
            x.tag = "IN PROGRESS"
            ∧ ∃ i < 2, x.elapsed = some ((i + 1) * (mkContextLogger "task" false 1).ping))
        ∧ cancel_and_wait "ping task" none .raisesCancelled ⟨true, true, 0⟩
            = .returnsNormally :=
  ⟨by decide, rfl, rfl,
   async_scope_ping_trace (mkContextLogger "task" false 1) 2 ⟨true, true, 0⟩ 3 none
     (by decide) rfl rfl rfl rfl rfl⟩

/-! ## Association-list lemmas for `merge_dicts` -/

theorem lookup_of_mem_nodup {X : PyDict} {k : String} {v : Val}
    (hnd : (keysOf X).Nodup) (hmem : (k, v) ∈ X) : lookupVal X k = some v := by
  induction X with
  | nil => cases hmem
  | cons hd t ih =>
    obtain ⟨k1, v1⟩ := hd
    rw [keysOf, List.map_cons, List.nodup_cons] at hnd
    rcases List.mem_cons.mp hmem with heq | hmem2
    · cases heq
      simp [lookupVal]
    · have hk : k1 ≠ k := by
        intro h
        apply hnd.1
        subst h
        exact List.mem_map.mpr ⟨(k1, v), hmem2, rfl⟩
      simp only [lookupVal, if_neg hk]
      exact ih hnd.2 hmem2

theorem setItem_same {D : PyDict} {k : String} {v : Val}
    (h : lookupVal D k = some v) : setItem D k v = D := by
  induction D with
  | nil => simp [lookupVal] at h
  | cons hd t ih =>
    obtain ⟨k1, v1⟩ := hd
    by_cases hk : k1 = k
    · subst hk
      simp [lookupVal] at h
      simp [setItem, h]
    · simp only [lookupVal, if_neg hk] at h
      simp [setItem, hk, ih h]

theorem lookup_setItem_self (D : PyDict) (k : String) (v : Val) :
    lookupVal (setItem D k v) k = some v := by
  induction D with
  | nil => simp [setItem, lookupVal]
  | cons hd t ih =>
    obtain ⟨k1, v1⟩ := hd
    by_cases hk : k1 = k
    · subst hk
      simp [setItem, lookupVal]
    · simp [setItem, hk, lookupVal, ih]

theorem lookup_setItem_other {D : PyDict} {k1 k : String} (v : Val) (hk : k1 ≠ k) :
    lookupVal (setItem D k1 v) k = lookupVal D k := by
  induction D with
  | nil => simp [setItem, lookupVal, hk]
  | cons hd t ih =>
    obtain ⟨k2, v2⟩ := hd
    by_cases h2 : k2 = k1
    · subst h2
      simp [setItem, lookupVal, hk]
    · simp [setItem, h2, lookupVal, ih]

theorem lookup_append_some {d1 : PyDict} (d2 : PyDict) {k : String} {v : Val}
    (h : lookupVal d1 k = some v) : lookupVal (d1 ++ d2) k = some v := by
  induction d1 with
  | nil => simp [lookupVal] at h
  | cons hd t ih =>
    obtain ⟨k1, v1⟩ := hd
    by_cases hk : k1 = k
    · subst hk
      simp_all [lookupVal]
    · simp only [lookupVal, if_neg hk] at h
      simp [lookupVal, hk, ih h]

theorem lookup_append_none {d1 : PyDict} (d2 : PyDict) {k : String}
    (h : lookupVal d1 k = none) : lookupVal (d1 ++ d2) k = lookupVal d2 k := by
  induction d1 with
  | nil => simp
  | cons hd t ih =>
    obtain ⟨k1, v1⟩ := hd
    by_cases hk : k1 = k
    · subst hk
      simp [lookupVal] at h
    · simp only [lookupVal, if_neg hk] at h
      simp [lookupVal, hk, ih h]

theorem mergeDicts_nil (D : PyDict) : mergeDicts [] D = D := by
  rw [mergeDicts]

theorem mergeDicts_cons (k : String) (v : Val) (rest D : PyDict) :
    mergeDicts ((k, v) :: rest) D = mergeDicts rest (mergeStep k v D) := by
  rw [mergeDicts]

theorem mergeStep_absent {D : PyDict} {k : String} (v : Val)
    (h : lookupVal D k = none) : mergeStep k v D = D ++ [(k, v)] := by
  rw [mergeStep.eq_def, h]

theorem mergeStep_dicts {D : PyDict} {k : String} {dw : List (String × Val)}
    (dv : List (String × Val)) (h : lookupVal D k = some (Val.dict dw)) :
    mergeStep k (Val.dict dv) D = setItem D k (Val.dict (mergeDicts dv dw)) := by
  rw [mergeStep.eq_def, h]

theorem mergeStep_over_nondict {D : PyDict} {k : String} {w : Val} (v : Val)
    (h : lookupVal D k = some w) (hv : ∀ dv, v ≠ Val.dict dv) :
    mergeStep k v D = setItem D k v := by
  cases v with
  | dict dv => exact absurd rfl (hv dv)
  | str s => cases w <;> rw [mergeStep.eq_def, h]
  | int i => cases w <;> rw [mergeStep.eq_def, h]

theorem mergeStep_over_dict_nondict {D : PyDict} {k : String} {w : Val}
    (dv : List (String × Val)) (h : lookupVal D k = some w)
    (hw : ∀ dw, w ≠ Val.dict dw) :
    mergeStep k (Val.dict dv) D = setItem D k (Val.dict dv) := by
  cases w with
  | dict dw => exact absurd rfl (hw dw)
  | str s => rw [mergeStep.eq_def, h]
  | int i => rw [mergeStep.eq_def, h]

theorem mergeStep_lookup (k1 : String) (v1 : Val) (D : PyDict) :
    (∀ k, k1 ≠ k → lookupVal (mergeStep k1 v1 D) k = lookupVal D k)
    ∧ lookupVal (mergeStep k1 v1 D) k1
        = some (match lookupVal D k1, v1 with
            | some (Val.dict dw), Val.dict dv => Val.dict (mergeDicts dv dw)
            | _, _ => v1) := by
  cases hDk : lookupVal D k1 with
  | none =>
    rw [mergeStep_absent v1 hDk]
    constructor
    · intro k hk
      cases hD2 : lookupVal D k with
      | some u => rw [lookup_append_some _ hD2]
      | none =>
        rw [lookup_append_none _ hD2]
        simp [lookupVal, hk]
    · rw [lookup_append_none _ hDk]
      simp [lookupVal]
  | some w =>
    cases v1 with
    | dict dv =>
      cases w with
      | dict dw =>
        rw [mergeStep_dicts dv hDk]
        exact ⟨fun k hk => lookup_setItem_other _ hk, lookup_setItem_self D k1 _⟩
      | str s =>
        rw [mergeStep_over_dict_nondict dv hDk (fun dw h => Val.noConfusion h)]
        exact ⟨fun k hk => lookup_setItem_other _ hk, lookup_setItem_self D k1 _⟩
      | int i =>
        rw [mergeStep_over_dict_nondict dv hDk (fun dw h => Val.noConfusion h)]
        exact ⟨fun k hk => lookup_setItem_other _ hk, lookup_setItem_self D k1 _⟩
    | str s =>
      rw [mergeStep_over_nondict _ hDk (fun dv h => Val.noConfusion h)]
      refine ⟨fun k hk => lookup_setItem_other _ hk, ?_⟩
      rw [lookup_setItem_self]
      cases w <;> rfl
    | int i =>
      rw [mergeStep_over_nondict _ hDk (fun dv h => Val.noConfusion h)]
      refine ⟨fun k hk => lookup_setItem_other _ hk, ?_⟩
      rw [lookup_setItem_self]
      cases w <;> rfl

theorem lookup_mergeDicts_not_mem {F : PyDict} {k : String} (D : PyDict)
    (hk : k ∉ keysOf F) : lookupVal (mergeDicts F D) k = lookupVal D k := by
  induction F generalizing D with
  | nil => rw [mergeDicts_nil]
  | cons hd rest ih =>
    obtain ⟨k1, v1⟩ := hd
    have hk1 : k1 ≠ k := by
      intro h
      apply hk
      rw [keysOf, List.map_cons, h]
      exact List.mem_cons_self _ _
    have hkrest : k ∉ keysOf rest := by
      intro h
      apply hk
      rw [keysOf, List.map_cons]
      exact List.mem_cons_of_mem _ h
    rw [mergeDicts_cons, ih _ hkrest, (mergeStep_lookup k1 v1 D).1 k hk1]

theorem wfVal_dict_cons {k : String} {v : Val} {rest : PyDict}
    (h : wfVal (Val.dict ((k, v) :: rest)) = true) :
    (keysOf rest).contains k = false ∧ wfVal v = true ∧ wfVal (Val.dict rest) = true := by
  rw [wfVal] at h
  simp only [Bool.and_eq_true, Bool.not_eq_true'] at h
  exact ⟨h.1.1, h.1.2, h.2⟩

theorem wfDict_nodup {X : PyDict} (h : wfDict X = true) : (keysOf X).Nodup := by
  induction X with
  | nil => simp [keysOf]
  | cons hd rest ih =>
    obtain ⟨k, v⟩ := hd
    obtain ⟨hc, hv, hrest⟩ := wfVal_dict_cons h
    rw [keysOf, List.map_cons, List.nodup_cons]
    refine ⟨?_, ih hrest⟩
    intro hmem
    have : (keysOf rest).contains k = true := by
      rw [List.contains_eq_any_beq]
      exact List.any_eq_true.mpr ⟨k, hmem, by simp⟩
    rw [this] at hc
    cases hc

theorem mergeDicts_absorb (F D : PyDict) (hwf : wfDict F = true)
    (habs : ∀ k v, (k, v) ∈ F → lookupVal D k = some v) : mergeDicts F D = D := by
  match F with
  | [] => rw [mergeDicts_nil]
  | (k, v) :: rest =>
    obtain ⟨hc, hv, hrest⟩ := wfVal_dict_cons hwf
    have hDk : lookupVal D k = some v := habs k v (List.mem_cons_self _ _)
    have habs2 : ∀ k2 v2, (k2, v2) ∈ rest → lookupVal D k2 = some v2 :=
      fun k2 v2 h2 => habs k2 v2 (List.mem_cons_of_mem _ h2)
    rw [mergeDicts_cons]
    cases v with
    | dict dv =>
      have hdd : mergeDicts dv dv = dv :=
        mergeDicts_absorb dv dv hv
          (fun k2 v2 h2 => lookup_of_mem_nodup (wfDict_nodup hv) h2)
      rw [mergeStep_dicts dv hDk, hdd, setItem_same hDk]
      exact mergeDicts_absorb rest D hrest habs2
    | str s =>
      rw [mergeStep_over_nondict _ hDk (fun dv h => Val.noConfusion h), setItem_same hDk]
      exact mergeDicts_absorb rest D hrest habs2
    | int i =>
      rw [mergeStep_over_nondict _ hDk (fun dv h => Val.noConfusion h), setItem_same hDk]
      exact mergeDicts_absorb rest D hrest habs2
termination_by sizeOf F

theorem mergeDicts_idem (F D : PyDict) (hwf : wfDict F = true) :
    mergeDicts F (mergeDicts F D) = mergeDicts F D := by
  match F with
  | [] => rw [mergeDicts_nil, mergeDicts_nil]
  | (k, v) :: rest =>
    obtain ⟨hc, hv, hrest⟩ := wfVal_dict_cons hwf
    have hknr : k ∉ keysOf rest := by
      intro hmem
      have : (keysOf rest).contains k = true := by
        rw [List.contains_eq_any_beq]
        exact List.any_eq_true.mpr ⟨k, hmem, by simp⟩
      rw [this] at hc
      cases hc
    rw [mergeDicts_cons, mergeDicts_cons]
    cases hDk : lookupVal D k with
    | none =>
      cases v with
      | dict dv =>
        have hdd : mergeDicts dv dv = dv :=
          mergeDicts_absorb dv dv hv
            (fun k2 v2 h2 => lookup_of_mem_nodup (wfDict_nodup hv) h2)
        have hE2 : lookupVal (mergeDicts rest (mergeStep k (Val.dict dv) D)) k
            = some (Val.dict dv) := by
          rw [lookup_mergeDicts_not_mem _ hknr, (mergeStep_lookup k (Val.dict dv) D).2, hDk]
        rw [mergeStep_dicts dv hE2, hdd, setItem_same hE2]
        exact mergeDicts_idem rest (mergeStep k (Val.dict dv) D) hrest
      | str s =>
        have hE2 : lookupVal (mergeDicts rest (mergeStep k (Val.str s) D)) k
            = some (Val.str s) := by
          rw [lookup_mergeDicts_not_mem _ hknr, (mergeStep_lookup k (Val.str s) D).2, hDk]
        rw [mergeStep_over_nondict _ hE2 (fun dv h => Val.noConfusion h), setItem_same hE2]
        exact mergeDicts_idem rest (mergeStep k (Val.str s) D) hrest
      | int i =>
        have hE2 : lookupVal (mergeDicts rest (mergeStep k (Val.int i) D)) k
            = some (Val.int i) := by
          rw [lookup_mergeDicts_not_mem _ hknr, (mergeStep_lookup k (Val.int i) D).2, hDk]
        rw [mergeStep_over_nondict _ hE2 (fun dv h => Val.noConfusion h), setItem_same hE2]
        exact mergeDicts_idem rest (mergeStep k (Val.int i) D) hrest
    | some w =>
      cases v with
      | dict dv =>
        cases w with
        | dict dw =>
          have hE2 : lookupVal (mergeDicts rest (mergeStep k (Val.dict dv) D)) k
              = some (Val.dict (mergeDicts dv dw)) := by
            rw [lookup_mergeDicts_not_mem _ hknr, (mergeStep_lookup k (Val.dict dv) D).2, hDk]
          have hrec : mergeDicts dv (mergeDicts dv dw) = mergeDicts dv dw :=
            mergeDicts_idem dv dw hv
          rw [mergeStep_dicts dv hE2, hrec, setItem_same hE2]
          exact mergeDicts_idem rest (mergeStep k (Val.dict dv) D) hrest
        | str s =>
          have hE2 : lookupVal (mergeDicts rest (mergeStep k (Val.dict dv) D)) k
              = some (Val.dict dv) := by
            rw [lookup_mergeDicts_not_mem _ hknr, (mergeStep_lookup k (Val.dict dv) D).2, hDk]
          have hdd : mergeDicts dv dv = dv :=
            mergeDicts_absorb dv dv hv
              (fun k2 v2 h2 => lookup_of_mem_nodup (wfDict_nodup hv) h2)
          rw [mergeStep_dicts dv hE2, hdd, setItem_same hE2]
          exact mergeDicts_idem rest (mergeStep k (Val.dict dv) D) hrest
        | int i =>
          have hE2 : lookupVal (mergeDicts rest (mergeStep k (Val.dict dv) D)) k
              = some (Val.dict dv) := by
            rw [lookup_mergeDicts_not_mem _ hknr, (mergeStep_lookup k (Val.dict dv) D).2, hDk]
          have hdd : mergeDicts dv dv = dv :=
            mergeDicts_absorb dv dv hv
              (fun k2 v2 h2 => lookup_of_mem_nodup (wfDict_nodup hv) h2)
          rw [mergeStep_dicts dv hE2, hdd, setItem_same hE2]
          exact mergeDicts_idem rest (mergeStep k (Val.dict dv) D) hrest
      | str s =>
        have hE2 : lookupVal (mergeDicts rest (mergeStep k (Val.str s) D)) k
            = some (Val.str s) := by
          rw [lookup_mergeDicts_not_mem _ hknr, (mergeStep_lookup k (Val.str s) D).2, hDk]
          cases w <;> rfl
        rw [mergeStep_over_nondict _ hE2 (fun dv h => Val.noConfusion h), setItem_same hE2]
        exact mergeDicts_idem rest (mergeStep k (Val.str s) D) hrest
      | int i =>
        have hE2 : lookupVal (mergeDicts rest (mergeStep k (Val.int i) D)) k
            = some (Val.int i) := by
          rw [lookup_mergeDicts_not_mem _ hknr, (mergeStep_lookup k (Val.int i) D).2, hDk]
          cases w <;> rfl
        rw [mergeStep_over_nondict _ hE2 (fun dv h => Val.noConfusion h), setItem_same hE2]
        exact mergeDicts_idem rest (mergeStep k (Val.int i) D) hrest
termination_by sizeOf F

theorem lookup_mergeDicts (F : PyDict) (k : String) (D : PyDict)
    (hnd : (keysOf F).Nodup) :
    lookupVal (mergeDicts F D) k
      = match lookupVal F k, lookupVal D k with
        | none, o => o
        | some v, none => some v
        | some (Val.dict dv), some (Val.dict dw) => some (Val.dict (mergeDicts dv dw))
        | some v, some _ => some v := by
  induction F generalizing D with
  | nil =>
    rw [mergeDicts_nil]
    rfl
  | cons hd rest ih =>
    obtain ⟨k1, v1⟩ := hd
    rw [keysOf, List.map_cons, List.nodup_cons] at hnd
    rw [mergeDicts_cons]
    by_cases hkk : k1 = k
    · subst hkk
      have hknr : k1 ∉ keysOf rest := hnd.1
      rw [lookup_mergeDicts_not_mem _ hknr, (mergeStep_lookup k1 v1 D).2]
      simp only [lookupVal, if_pos rfl]
      cases hD : lookupVal D k1 with
      | none => cases v1 <;> rfl
      | some w => cases v1 <;> cases w <;> rfl
    · rw [ih _ hnd.2, (mergeStep_lookup k1 v1 D).1 k hkk]
      simp only [lookupVal, if_neg hkk]

/-- C6: `merge_dicts` with an empty `from_this` leaves `into_this`
unchanged; applying it twice with the same well-formed `from_this` yields
the same `into_this` as applying it once (proved without the spec's extra
qualification on `F`'s keys, so a fortiori under it); for a key present in
both dicts whose values are both mappings the merged value is the key-wise
recursive merge, and for a key present in both whose values are not both
mappings the `from_this` value overwrites. -/
theorem merge_dicts_laws (F D : PyDict) (hwf : wfDict F = true) :
    mergeDicts [] D = D
    ∧ mergeDicts F (mergeDicts F D) = mergeDicts F D
    ∧ (∀ k dv dw, (k, Val.dict dv) ∈ F → lookupVal D k = some (Val.dict dw) →
        lookupVal (mergeDicts F D) k = some (Val.dict (mergeDicts dv dw)))
    ∧ (∀ k v w, (k, v) ∈ F → lookupVal D k = some w →
        ((∃ dv, v = Val.dict dv) → (∃ dw, w = Val.dict dw) → False) →
        lookupVal (mergeDicts F D) k = some v) := by
  have hnd : (keysOf F).Nodup := wfDict_nodup hwf
  refine ⟨mergeDicts_nil D, mergeDicts_idem F D hwf, ?_, ?_⟩
  · intro k dv dw hmem hDk
    rw [lookup_mergeDicts F k D hnd, lookup_of_mem_nodup hnd hmem, hDk]
  · intro k v w hmem hDk hnb
    rw [lookup_mergeDicts F k D hnd, lookup_of_mem_nodup hnd hmem, hDk]
    cases v with
    | dict dv =>
      cases w with
      | dict dw => exact (hnb ⟨dv, rfl⟩ ⟨dw, rfl⟩).elim
      | str s => rfl
      | int i => rfl
    | str s => cases w <;> rfl
    | int i => cases w <;> rfl




/-- Witness for C6 on the concrete dict pair: empty-merge no-op,
idempotence, the recursive merge at key `"b"` (both values dicts) and the
overwrite at key `"d"` (string over int). -/
theorem merge_dicts_laws_witness :
    wfDict mergeWitnessFrom = true
    ∧ mergeDicts [] mergeWitnessInto = mergeWitnessInto
    ∧ mergeDicts mergeWitnessFrom (mergeDicts mergeWitnessFrom mergeWitnessInto)
        = mergeDicts mergeWitnessFrom mergeWitnessInto
    ∧ lookupVal (mergeDicts mergeWitnessFrom mergeWitnessInto) "b"
        = some (Val.dict (mergeDicts [("c", Val.int 2)] [("c", Val.int 9), ("e", Val.int 3)]))
    ∧ lookupVal (mergeDicts mergeWitnessFrom mergeWitnessInto) "d"
        = some (Val.str "x") :=
  have hwf : wfDict mergeWitnessFrom = true := by
    simp [mergeWitnessFrom, wfDict, wfVal, keysOf]
  ⟨hwf,
   (merge_dicts_laws mergeWitnessFrom mergeWitnessInto hwf).1,
   (merge_dicts_laws mergeWitnessFrom mergeWitnessInto hwf).2.1,
   (merge_dicts_laws mergeWitnessFrom mergeWitnessInto hwf).2.2.1 "b"
     [("c", Val.int 2)] [("c", Val.int 9), ("e", Val.int 3)]
     (by simp [mergeWitnessFrom]) (by simp [mergeWitnessInto, lookupVal]),
   (merge_dicts_laws mergeWitnessFrom mergeWitnessInto hwf).2.2.2 "d"
     (Val.str "x") (Val.int 7)
     (by simp [mergeWitnessFrom]) (by simp [mergeWitnessInto, lookupVal])
     (fun hdv _ => by obtain ⟨dv, h⟩ := hdv; cases h)⟩
